import Mathlib

/-!
# webby: a shallow embedding of `webby.go`

The Go package is a thin helper around `net/http`, `encoding/json`,
`encoding/csv` and `net/url`.  The functions of `webby.go` are translated
one by one.  Standard-library collaborators (the HTTP client, the JSON
decoder, the CSV reader, `io.Copy`, `url.Parse`) are not part of the
package: they enter the embedding as parameters, and small executable
models of them are given further down so that the package functions can be
evaluated on the inputs of `webby_test.go`.

Conventions
* a Go `string` is a Lean `String`;
* a Go `error` is `Option GoError`, `none` being `nil`;
* a Go `map[string]T` is an association list with unique keys (`GoMap T`);
* a method with a pointer receiver becomes a function returning the new
  receiver value; callback and writer state is passed explicitly.
-/

namespace Webby

/-! ## Errors -/

/-- Go `error` values that the package can observe.  `EOF` is the sentinel
`io.EOF`; `errorf msg` is a value made by `fmt.Errorf` (a fresh value, never
equal to a sentinel); `other msg` is any other error produced by a library
or by a caller-supplied callback. -/
inductive GoError where
  | EOF
  | errorf (msg : String)
  | other (msg : String)
  deriving DecidableEq, Repr

/-! ## Constants (`webby.go` lines 15-19) -/

def userAgentValue : String :=
  "Mozilla/5.0 (X11; Linux x86_64) AppleWebKit/537.36 (KHTML, like Gecko) Ubuntu Chromium/58.0.3029.110 Chrome/58.0.3029.110 Safari/537.36"

def languageValue : String := "en-US,en;q=0.8"

def cacheControlValue : String := "max-age=0"

/-- The constant `http.StatusOK`. -/
def StatusOK : Int := 200

/-! ## Maps, requests and responses -/

/-- A Go `map[string]T`: finitely many entries, one per key. -/
abbrev GoMap (α : Type) := AList (fun _ : String => α)

/-- The type `http.Header`, keyed by canonical header names. -/
abbrev Header := GoMap (List String)

/-- The method `Header.Set` for a key that is already in canonical form
(all four keys used by the package are): the key's values become `[value]`. -/
def Header.Set (h : Header) (key value : String) : Header :=
  AList.insert key [value] h

/-- The fields of `http.Request` that the package touches. -/
structure Request where
  Method : String
  URL : String
  Header : Header

/-- A response body stream: its content and whether `Close` has been called. -/
structure Body where
  data : String
  closed : Bool
  deriving DecidableEq, Repr

/-- The method `resp.Body.Close()`. -/
def Body.Close (b : Body) : Body := { b with closed := true }

/-- The fields of `http.Response` that the package touches. -/
structure Response where
  StatusCode : Int
  Status : String
  Body : Body
  deriving DecidableEq, Repr

/-- The `net/http` collaborators of the package, for a client state `κ`:
`newRequestErr uri` is the error (if any) with which
`http.NewRequest("GET", uri, nil)` rejects `uri`; `defaultClient` is
`&http.Client{}`; `clientDo` is `Client.Do`, which may update the client
(cookie jar, connection pool). -/
structure Transport (κ : Type) where
  newRequestErr : String → Option GoError
  defaultClient : κ
  clientDo : κ → Request → Except GoError Response × κ

/-- The function `http.NewRequest(method, uri, nil)`: an error, or a
request with an empty header map. -/
def NewRequest {κ : Type} (T : Transport κ) (method uri : String) : Except GoError Request :=
  match T.newRequestErr uri with
  | some err => .error err
  | none => .ok { Method := method, URL := uri, Header := ∅ }

/-- The value `fmt.Errorf("status %s", status)`. -/
def statusError (status : String) : GoError := .errorf ("status " ++ status)

/-! ## `Api` (`webby.go` lines 21-119) -/

/-- The struct `Api`; `Client` is `none` for a nil pointer. -/
structure Api (κ : Type) where
  Client : Option κ

/-- What a `Get*` call leaves behind: the returned error, the receiver, the
request handed to the client (if one was), the response body in the state in
which the call leaves it (if a response was obtained), and the value the
call writes to (JSON target, callback state, or writer). -/
structure Outcome (κ α : Type) where
  err : Option GoError
  api : Api κ
  sent : Option Request
  body : Option Body
  val : α

/-- The method `(c *Api) do`. -/
def Api.do {κ : Type} (T : Transport κ) (c : Api κ) (req : Request) :
    Except GoError Response × Api κ :=
  let client := match c.Client with
    | none => T.defaultClient
    | some k => k
  let r := T.clientDo client req
  (r.1, { Client := some r.2 })

/-- The method `(c *Api) setDefaultHeaders`. -/
def setDefaultHeaders (req : Request) (contentType : String) : Request :=
  let h := req.Header.Set "User-Agent" userAgentValue
  let h := h.Set "Accept-Language" languageValue
  let h := h.Set "Cache-Control" cacheControlValue
  if contentType ≠ "" then
    { req with Header := h.Set "Accept" contentType }
  else
    { req with Header := h }

/-- The method `(c *Api) GetJSON`.  `decode body v` stands for
`json.NewDecoder(body).Decode(v)`: the error it returns and the target as it
leaves it. -/
def Api.GetJSON {κ τ : Type} (T : Transport κ) (decode : Body → τ → Option GoError × τ)
    (c : Api κ) (uri : String) (v : τ) : Outcome κ τ :=
  match NewRequest T "GET" uri with
  | .error err => { err := some err, api := c, sent := none, body := none, val := v }
  | .ok req =>
    let req := setDefaultHeaders req "application/json"
    match c.do T req with
    | (.error err, c) => { err := some err, api := c, sent := some req, body := none, val := v }
    | (.ok resp, c) =>
      if resp.StatusCode ≠ StatusOK then
        { err := some (statusError resp.Status), api := c, sent := some req,
          body := some resp.Body, val := v }
      else
        let r := decode resp.Body v
        let body := resp.Body.Close
        if r.1 = some GoError.EOF then
          { err := none, api := c, sent := some req, body := some body, val := r.2 }
        else
          { err := r.1, api := c, sent := some req, body := some body, val := r.2 }

/-! ## CSV (`webby.go` lines 121-150) -/

/-- One CSV record. -/
abbrev Record := List String

/-- A `csv.Reader` over a finite input: the results of its successive `Read`
calls.  Once the list is used up every further `Read` reports `io.EOF`. -/
abbrev CsvReader := List (Except GoError Record)

/-- The method `reader.Read()`: the next result and the advanced reader. -/
def CsvReader.Read : CsvReader → Except GoError Record × CsvReader
  | [] => (.error .EOF, [])
  | x :: rest => (x, rest)

/-- The `for` loop of `readCSV`: returns the value of `err` at the `break`
and the callback state.  Each clause is one `reader.Read()`. -/
def readLoop {σ : Type} (acceptRecord : Record → σ → Option GoError × σ) :
    CsvReader → σ → Option GoError × σ
  | [], s => (some .EOF, s)
  | .error err :: _, s => (some err, s)
  | .ok record :: rest, s =>
    match acceptRecord record s with
    | (some err, s) => (some err, s)
    | (none, s) => readLoop acceptRecord rest s

/-- The function `readCSV`.  `csvNewReader` stands for `csv.NewReader`. -/
def readCSV {σ : Type} (csvNewReader : Body → CsvReader) (r : Body)
    (acceptRecord : Record → σ → Option GoError × σ) (s : σ) : Option GoError × σ :=
  let reader := csvNewReader r
  let out := readLoop acceptRecord reader s
  if out.1 = some GoError.EOF then (none, out.2) else out

/-- The method `(c *Api) GetCSV`. -/
def Api.GetCSV {κ σ : Type} (T : Transport κ) (csvNewReader : Body → CsvReader)
    (c : Api κ) (uri : String) (acceptRecord : Record → σ → Option GoError × σ) (s : σ) :
    Outcome κ σ :=
  match NewRequest T "GET" uri with
  | .error err => { err := some err, api := c, sent := none, body := none, val := s }
  | .ok req =>
    let req := setDefaultHeaders req "text/csv"
    match c.do T req with
    | (.error err, c) => { err := some err, api := c, sent := some req, body := none, val := s }
    | (.ok resp, c) =>
      if resp.StatusCode ≠ StatusOK then
        { err := some (statusError resp.Status), api := c, sent := some req,
          body := some resp.Body, val := s }
      else
        let r := readCSV csvNewReader resp.Body acceptRecord s
        let body := resp.Body.Close
        { err := r.1, api := c, sent := some req, body := some body, val := r.2 }

/-- The method `(c *Api) GetBody`.  `ioCopy w body` stands for
`io.Copy(w, body)`: the error it returns and the writer as it leaves it. -/
def Api.GetBody {κ ω : Type} (T : Transport κ) (ioCopy : ω → Body → Option GoError × ω)
    (c : Api κ) (uri : String) (writer : ω) : Outcome κ ω :=
  match NewRequest T "GET" uri with
  | .error err => { err := some err, api := c, sent := none, body := none, val := writer }
  | .ok req =>
    let req := setDefaultHeaders req ""
    match c.do T req with
    | (.error err, c) =>
      { err := some err, api := c, sent := some req, body := none, val := writer }
    | (.ok resp, c) =>
      if resp.StatusCode ≠ StatusOK then
        { err := some (statusError resp.Status), api := c, sent := some req,
          body := some resp.Body, val := writer }
      else
        let r := ioCopy writer resp.Body
        let body := resp.Body.Close
        { err := r.1, api := c, sent := some req, body := some body, val := r.2 }

/-- The struct `CSVRows`. -/
structure CSVRows where
  Rows : List Record
  deriving DecidableEq, Repr

/-- The method `(c *CSVRows) Add`. -/
def CSVRows.Add (row : Record) (c : CSVRows) : Option GoError × CSVRows :=
  (none, { Rows := c.Rows ++ [row] })

/-- A callback together with a log of the records it has been invoked on:
the log grows by one entry per invocation and is otherwise invisible to the
callback. -/
def traceAccept {σ : Type} (acceptRecord : Record → σ → Option GoError × σ) :
    Record → σ × List Record → Option GoError × (σ × List Record) :=
  fun record s =>
    let r := acceptRecord record s.1
    (r.1, (r.2, s.2 ++ [record]))

/-! ## `GetLastURLSegment` (`webby.go` lines 152-168) -/

/-- The fields of `url.URL` that `url.Parse` fills in. -/
structure URL where
  Scheme : String
  Opaque : String
  Host : String
  Path : String
  RawQuery : String
  Fragment : String
  deriving DecidableEq, Repr

/-- Splitting a character sequence at every occurrence of `sep`. -/
def splitChars (sep : Char) : List Char → List (List Char)
  | [] => [[]]
  | c :: cs =>
    if c = sep then [] :: splitChars sep cs
    else
      match splitChars sep cs with
      | [] => [[c]]
      | seg :: segs => (c :: seg) :: segs

/-- The function `strings.Split(s, sep)` for a one-character separator: the
pieces of `s` between the occurrences of `sep`; `[s]` when there is none. -/
def stringsSplit (s : String) (sep : Char) : List String :=
  (splitChars sep s.data).map String.mk

/-- The function `GetLastURLSegment`.  `urlParse` stands for `url.Parse`.
The index expression `segments[len(segments)-1]` is always in range, since
`strings.Split` never returns an empty slice (`stringsSplit_ne_nil`). -/
def GetLastURLSegment (urlParse : String → Except GoError URL) (fullUrl : String) :
    String × Option GoError :=
  match urlParse fullUrl with
  | .error err => ("", some err)
  | .ok URL =>
    let path := URL.Path
    if path = "" then ("", none)
    else
      let segments := stringsSplit path '/'
      (segments.getD (segments.length - 1) "", none)

/-! ## `UrlBuilder` (`webby.go` lines 170-215) -/

/-- The struct `UrlBuilder`; `params` is `none` for a nil map. -/
structure UrlBuilder where
  base : String
  path : String
  params : Option (GoMap String)

/-- The zero value `UrlBuilder{}`. -/
def UrlBuilder.zero : UrlBuilder := { base := "", path := "", params := none }

/-- The method `(u *UrlBuilder) Base`. -/
def UrlBuilder.Base (u : UrlBuilder) (base : String) : UrlBuilder :=
  { u with base := base }

/-- The method `(u *UrlBuilder) Path`. -/
def UrlBuilder.Path (u : UrlBuilder) (path : String) : UrlBuilder :=
  { u with path := path }

/-- The method `(u *UrlBuilder) Param`. -/
def UrlBuilder.Param (u : UrlBuilder) (key value : String) : UrlBuilder :=
  if value = "" then u
  else
    let params := match u.params with
      | none => (∅ : GoMap String)
      | some m => m
    { u with params := some (AList.insert key value params) }

/-- One entry of a `map[string]string`. -/
abbrev Entry := Sigma (fun _ : String => String)

/-- The entries of `u.params`; a nil map has none. -/
def UrlBuilder.entries (u : UrlBuilder) : List Entry :=
  match u.params with
  | none => []
  | some m => m.entries

/-- The order in which a `for k, v := range m` statement visits the entries
of a map: unspecified by the language, but every entry is visited exactly
once. -/
structure RangeOrder where
  visit : List Entry → List Entry
  perm : ∀ l, (visit l).Perm l

/-- The body of the `range` loop of `Build`, run over the entries in the
order given: `buf` is the buffer content and `sep` the loop variable. -/
def writeParams : String → String → List Entry → String
  | buf, _, [] => buf
  | buf, sep, e :: rest => writeParams ((((buf ++ sep) ++ e.1) ++ "=") ++ e.2) "&" rest

/-- The method `(u *UrlBuilder) Build`, for a given iteration order of the
`range` statement. -/
def UrlBuilder.Build (ρ : RangeOrder) (u : UrlBuilder) : String :=
  let buf := u.base ++ u.path
  if u.entries.length > 0 then writeParams buf "?" (ρ.visit u.entries)
  else buf

/-! ## Executable models of the standard-library collaborators

The theorems about the package quantify over the collaborators.  The models
below instantiate them on the fragment of inputs described in each doc
comment, so that the package functions can be evaluated on the inputs of
`webby_test.go`.  In them a Go string is read one character per byte. -/

/-- The part of `s` before the first `sep` and the part after it (empty when
there is no `sep`), as `strings.Cut` returns them. -/
def cutAt (sep : Char) : List Char → List Char × List Char
  | [] => ([], [])
  | c :: cs =>
    if c = sep then ([], cs)
    else
      let r := cutAt sep cs
      (c :: r.1, r.2)

/-- The function `getScheme` of `net/url`, with the characters read so far in
`seen`: the scheme and the rest, `([], rawURL)` when there is no scheme, or
an error when the URL starts with a colon. -/
def getScheme (rawURL : List Char) : List Char → List Char → Except GoError (List Char × List Char)
  | _, [] => .ok ([], rawURL)
  | seen, c :: cs =>
    if c.isAlpha then getScheme rawURL (seen ++ [c]) cs
    else if c.isDigit ∨ c = '+' ∨ c = '-' ∨ c = '.' then
      if seen = [] then .ok ([], rawURL) else getScheme rawURL (seen ++ [c]) cs
    else if c = ':' then
      if seen = [] then .error (.other "missing protocol scheme") else .ok (seen, cs)
    else .ok ([], rawURL)

/-- The value of a hexadecimal digit. -/
def unhex (c : Char) : Option Nat :=
  if '0' ≤ c ∧ c ≤ '9' then some (c.toNat - '0'.toNat)
  else if 'a' ≤ c ∧ c ≤ 'f' then some (c.toNat - 'a'.toNat + 10)
  else if 'A' ≤ c ∧ c ≤ 'F' then some (c.toNat - 'A'.toNat + 10)
  else none

/-- The function `unescape` of `net/url` in path mode: every `%XX` becomes
the byte `XX`; a `%` not followed by two hexadecimal digits is an error. -/
def unescapePath : List Char → Except GoError (List Char)
  | [] => .ok []
  | c :: cs =>
    if c = '%' then
      match cs with
      | a :: b :: rest =>
        match unhex a, unhex b with
        | some x, some y =>
          match unescapePath rest with
          | .ok r => .ok (Char.ofNat (16 * x + y) :: r)
          | .error err => .error err
        | _, _ => .error (.other "invalid URL escape")
      | _ => .error (.other "invalid URL escape")
    else
      match unescapePath cs with
      | .ok r => .ok (c :: r)
      | .error err => .error err

/-- The part of a character sequence after its last `sep`; all of it when
there is no `sep`. -/
def afterLast (sep : Char) : List Char → List Char
  | [] => []
  | c :: cs => if sep ∈ cs then afterLast sep cs else if c = sep then cs else c :: cs

/-- A model of `url.Parse`, following `net/url`: the fragment is cut off at
the first `#`; control characters are rejected; `*` is a path; the scheme
is split off (and lower-cased); the query is cut off at the first `?`; a
rootless rest after a scheme is opaque; a relative reference whose first
segment contains a colon is rejected; after `//` comes the authority, up to
the next `/`; the rest, percent-decoded, is the path.  Not modelled: the
validation of the authority (the host is taken as written, user information
dropped) and of the fragment (taken as written). -/
def urlParse (rawURL : String) : Except GoError URL :=
  let parts := cutAt '#' rawURL.data
  let u := parts.1
  let frag := String.mk parts.2
  if u.any (fun c => c.toNat < 32 ∨ c.toNat = 127) then
    .error (.other "net/url: invalid control character in URL")
  else if u = ['*'] then
    .ok { Scheme := "", Opaque := "", Host := "", Path := "*", RawQuery := "", Fragment := frag }
  else
    match getScheme u [] u with
    | .error err => .error err
    | .ok (scheme, rest) =>
      let scheme := String.mk (scheme.map Char.toLower)
      let q := cutAt '?' rest
      let rest := q.1
      let query := String.mk q.2
      if rest.head? ≠ some '/' ∧ scheme ≠ "" then
        .ok { Scheme := scheme, Opaque := String.mk rest, Host := "", Path := "",
              RawQuery := query, Fragment := frag }
      else if rest.head? ≠ some '/' ∧ ':' ∈ (cutAt '/' rest).1 then
        .error (.other "first path segment in URL cannot contain colon")
      else
        let hasAuthority : Bool :=
          (scheme ≠ "" ∨ rest.take 3 ≠ ['/', '/', '/']) ∧ rest.take 2 = ['/', '/']
        let authority := if hasAuthority then (rest.drop 2).takeWhile (fun c => c ≠ '/') else []
        let rest := if hasAuthority then (rest.drop 2).dropWhile (fun c => c ≠ '/') else rest
        match unescapePath rest with
        | .error err => .error err
        | .ok path =>
          .ok { Scheme := scheme, Opaque := "", Host := String.mk (afterLast '@' authority),
                Path := String.mk path, RawQuery := query, Fragment := frag }

/-- Removes one trailing carriage return, as `csv.Reader.readLine` does. -/
def dropTrailingCR (line : List Char) : List Char :=
  if line.getLast? = some '\r' then line.dropLast else line

/-- The records of the lines of a quote-free CSV input.  `expected` is the
`FieldsPerRecord` of the reader: unset before the first record, then the
number of fields of the first record, which every later record must have. -/
def csvLines : Option Nat → List (List Char) → CsvReader
  | _, [] => []
  | expected, line :: rest =>
    let line := dropTrailingCR line
    if line = [] then csvLines expected rest
    else
      let record : Record := (splitChars ',' line).map String.mk
      match expected with
      | none => .ok record :: csvLines (some record.length) rest
      | some n =>
        if record.length = n then .ok record :: csvLines expected rest
        else .error (.other "record on line: wrong number of fields") :: csvLines expected rest

/-- A model of `csv.NewReader` with default settings on a body without the
quote character: lines end at `\n`, one trailing `\r` is dropped, empty lines
are skipped, fields are separated by commas, and a record whose number of
fields differs from the first record's is reported as an error.  Quoted
fields are not modelled: a body containing a quote is one error. -/
def csvNewReader (r : Body) : CsvReader :=
  if '\x22' ∈ r.data.data then [.error (.other "quoted input: not modelled")]
  else csvLines none (splitChars '\n' r.data.data)

/-- The target type `struct{ Key string }` of `webby_test.go`. -/
structure KeyTarget where
  Key : String
  deriving DecidableEq, Repr

/-- The states of the scanner of `jsonDecodeKey`. -/
inductive JsonState where
  | start
  | wantKey (first : Bool)
  | inKey (key : List Char)
  | wantColon (key : List Char)
  | wantValue (key : List Char)
  | inValue (key value : List Char)
  | wantComma
  deriving DecidableEq, Repr

/-- JSON white space. -/
def jsonSpace (c : Char) : Bool := c = ' ' ∨ c = '\t' ∨ c = '\n' ∨ c = '\r'

/-- The scanner of `jsonDecodeKey`: reads one object from the input and
assigns the member named `key` (compared without regard to case). -/
def jsonScan : JsonState → KeyTarget → List Char → Option GoError × KeyTarget
  | .start, v, [] => (some .EOF, v)
  | _, v, [] => (some (.other "unexpected EOF"), v)
  | .start, v, c :: cs =>
    if jsonSpace c then jsonScan .start v cs
    else if c = '\x7b' then jsonScan (.wantKey true) v cs
    else (some (.other "json: value outside the model"), v)
  | .wantKey first, v, c :: cs =>
    if jsonSpace c then jsonScan (.wantKey first) v cs
    else if c = '\x22' then jsonScan (.inKey []) v cs
    else if c = '\x7d' ∧ first then (none, v)
    else (some (.other "json: invalid character"), v)
  | .inKey key, v, c :: cs =>
    if c = '\x22' then jsonScan (.wantColon key) v cs
    else if c = '\x5c' then (some (.other "json: escape outside the model"), v)
    else jsonScan (.inKey (key ++ [c])) v cs
  | .wantColon key, v, c :: cs =>
    if jsonSpace c then jsonScan (.wantColon key) v cs
    else if c = ':' then jsonScan (.wantValue key) v cs
    else (some (.other "json: invalid character"), v)
  | .wantValue key, v, c :: cs =>
    if jsonSpace c then jsonScan (.wantValue key) v cs
    else if c = '\x22' then jsonScan (.inValue key []) v cs
    else (some (.other "json: value outside the model"), v)
  | .inValue key value, v, c :: cs =>
    if c = '\x22' then
      if key.map Char.toLower = ['k', 'e', 'y'] then
        jsonScan .wantComma { Key := String.mk value } cs
      else jsonScan .wantComma v cs
    else if c = '\x5c' then (some (.other "json: escape outside the model"), v)
    else jsonScan (.inValue key (value ++ [c])) v cs
  | .wantComma, v, c :: cs =>
    if jsonSpace c then jsonScan .wantComma v cs
    else if c = ',' then jsonScan (.wantKey false) v cs
    else if c = '\x7d' then (none, v)
    else (some (.other "json: invalid character"), v)

/-- A model of `json.NewDecoder(body).Decode(v)` for `v` of type
`*struct{ Key string }`, on bodies that are empty, white space, or one flat
object whose members are strings without escapes: `io.EOF` when the body
holds no value, otherwise the member `key`, if present, is stored in `Key`.
Other JSON values are not modelled and reported as errors. -/
def jsonDecodeKey (body : Body) (v : KeyTarget) : Option GoError × KeyTarget :=
  jsonScan .start v body.data.data

/-- A model of `io.Copy` into a `bytes.Buffer`, whose writes cannot fail:
the body is appended to the buffer. -/
def ioCopyBuffer (writer : String) (body : Body) : Option GoError × String :=
  (none, writer ++ body.data)

/-- The server of `mockWebResponse` in `webby_test.go`, seen from the
client: every URI is accepted and every request is answered with `resp`. -/
def mockWebResponse (resp : Response) : Transport Unit :=
  { newRequestErr := fun _ => none
    defaultClient := ()
    clientDo := fun k _ => (.ok resp, k) }

/-- An iteration order for `range`: the entries as stored. -/
def RangeOrder.stored : RangeOrder :=
  { visit := fun l => l
    perm := fun l => List.Perm.refl l }

/-- Another iteration order for `range`: the entries in reverse. -/
def RangeOrder.reversed : RangeOrder :=
  { visit := fun l => l.reverse
    perm := fun l => List.reverse_perm l }

/-! ## Specification-side vocabulary -/

/-- The text `key=value` of one map entry, written verbatim. -/
def pairString (e : Entry) : String := e.1 ++ "=" ++ e.2

/-- What `readCSV` returns for the value `err` with which its loop stopped:
`nil` for `io.EOF`, the error itself otherwise. -/
def eofToNil (err : GoError) : Option GoError :=
  if err = GoError.EOF then none else some err

/-- Runs the callback over the records in order, as long as it reports no
error: the final state when all invocations succeed. -/
def acceptAll {σ : Type} (acceptRecord : Record → σ → Option GoError × σ) :
    List Record → σ → Option σ
  | [], s => some s
  | record :: rest, s =>
    match acceptRecord record s with
    | (none, s) => acceptAll acceptRecord rest s
    | (some _, _) => none

/-- The request that a `Get*` call hands to the client for `uri`, once
`http.NewRequest` has accepted it: the fresh `GET` request with the default
headers for `contentType`. -/
def getRequest (uri contentType : String) : Request :=
  setDefaultHeaders { Method := "GET", URL := uri, Header := ∅ } contentType

/-- The client that a call on `c` hands its request to: `c.Client`, or
`&http.Client{}` when `c.Client` is nil. -/
def Api.clientOrDefault {κ : Type} (T : Transport κ) (c : Api κ) : κ :=
  match c.Client with
  | none => T.defaultClient
  | some k => k

/-- A client that keeps, as its state, the list of the requests it has
received, in order, and answers each request `req` with `answer req`; every
URI is accepted by `http.NewRequest`. -/
def recordingTransport (answer : Request → Except GoError Response) :
    Transport (List Request) :=
  { newRequestErr := fun _ => none
    defaultClient := []
    clientDo := fun received req => (answer req, received ++ [req]) }

/-! ## Auxiliary lemmas -/

theorem intercalate_go_append (x s : String) (l : List String) (acc : String) :
    String.intercalate.go (x ++ acc) s l = x ++ String.intercalate.go acc s l := by
  induction l generalizing acc with
  | nil => simp [String.intercalate.go]
  | cons a as ih =>
    simp only [String.intercalate.go]
    rw [← ih]
    simp [String.append_assoc]

theorem writeParams_amp (l : List Entry) (acc : String) :
    writeParams acc "&" l = String.intercalate.go acc "&" (l.map pairString) := by
  induction l generalizing acc with
  | nil => simp [writeParams, String.intercalate.go]
  | cons e rest ih =>
    simp only [writeParams, List.map_cons, String.intercalate.go]
    rw [ih]
    simp [pairString, String.append_assoc]

theorem writeParams_cons (buf sep : String) (e : Entry) (l : List Entry) :
    writeParams buf sep (e :: l) =
      buf ++ sep ++ String.intercalate "&" ((e :: l).map pairString) := by
  simp only [writeParams, List.map_cons, String.intercalate]
  rw [writeParams_amp, ← intercalate_go_append]
  simp [pairString, String.append_assoc]

theorem Build_of_entries_ne_nil (ρ : RangeOrder) (u : UrlBuilder) (h : u.entries ≠ []) :
    u.Build ρ =
      u.base ++ u.path ++ "?" ++ String.intercalate "&" ((ρ.visit u.entries).map pairString) := by
  have hlen : u.entries.length > 0 := List.length_pos.mpr h
  have hv : ρ.visit u.entries ≠ [] := by
    intro h0
    have := (ρ.perm u.entries).length_eq
    rw [h0] at this
    simp at this
    exact h (List.length_eq_zero.mp this.symm)
  obtain ⟨e, l, hl⟩ := List.exists_cons_of_ne_nil hv
  simp only [UrlBuilder.Build, hlen, if_true, hl]
  exact writeParams_cons _ _ _ _

theorem Build_of_entries_nil (ρ : RangeOrder) (u : UrlBuilder) (h : u.entries = []) :
    u.Build ρ = u.base ++ u.path := by
  simp [UrlBuilder.Build, h]

theorem entries_nodupKeys (u : UrlBuilder) : (u.entries.map Sigma.fst).Nodup := by
  unfold UrlBuilder.entries
  cases u.params with
  | none => simp
  | some m => exact m.keys_nodup

theorem Param_entries_of_ne (u : UrlBuilder) (k v : String) (h : v ≠ "") :
    ∃ m : GoMap String, (u.Param k v).params = some (AList.insert k v m) ∧
      (u.Param k v).entries = (AList.insert k v m).entries ∧
      (u.Param k v).base = u.base ∧ (u.Param k v).path = u.path := by
  refine ⟨(match u.params with | none => ∅ | some m => m), ?_⟩
  simp [UrlBuilder.Param, UrlBuilder.entries, h]

theorem Param_Param_same (u : UrlBuilder) (k v1 v2 : String) (h1 : v1 ≠ "") (h2 : v2 ≠ "") :
    (u.Param k v1).Param k v2 = u.Param k v2 := by
  unfold UrlBuilder.Param
  simp only [h1, h2, if_false]
  cases u.params <;> simp [AList.insert_insert]

theorem mem_entries_Param (u : UrlBuilder) (k v : String) (h : v ≠ "") :
    (⟨k, v⟩ : Entry) ∈ (u.Param k v).entries ∧
    ∀ w : String, (⟨k, w⟩ : Entry) ∈ (u.Param k v).entries → w = v := by
  obtain ⟨m, -, he, -, -⟩ := Param_entries_of_ne u k v h
  rw [he]
  constructor
  · exact AList.mem_lookup_iff.mp (by simp [AList.lookup_insert])
  · intro w hw
    have := AList.mem_lookup_iff.mpr hw
    simpa [AList.lookup_insert] using this.symm

theorem splitChars_ne_nil (sep : Char) (l : List Char) : splitChars sep l ≠ [] := by
  cases l with
  | nil => simp [splitChars]
  | cons c cs =>
    simp only [splitChars]
    split
    · simp
    · split <;> simp

theorem splitChars_last (sep : Char) (l : List Char) :
    ∃ (init : List (List Char)) (r : List Char), splitChars sep l = init ++ [r] ∧ sep ∉ r ∧
      ((init = [] ∧ sep ∉ l ∧ r = l) ∨ (init ≠ [] ∧ ∃ pre, l = pre ++ sep :: r)) := by
  induction l with
  | nil => exact ⟨[], [], by simp [splitChars], by simp, Or.inl ⟨rfl, by simp, rfl⟩⟩
  | cons c cs ih =>
    obtain ⟨init, r, hs, hr, hcase⟩ := ih
    by_cases hc : c = sep
    · refine ⟨[] :: init, r, by simp [splitChars, hc, hs], hr, Or.inr ⟨by simp, ?_⟩⟩
      rcases hcase with ⟨-, -, h⟩ | ⟨-, pre, h⟩
      · exact ⟨[], by simp [hc, h]⟩
      · exact ⟨c :: pre, by simp [h]⟩
    · rcases hcase with ⟨hi, hn, h⟩ | ⟨hi, pre, h⟩
      · subst hi
        refine ⟨[], c :: r, by simp [splitChars, hc, hs], ?_, Or.inl ⟨rfl, ?_, by rw [h]⟩⟩
        · simp [hr, Ne.symm hc]
        · simp [hn, Ne.symm hc]
      · obtain ⟨i0, is, rfl⟩ := List.exists_cons_of_ne_nil hi
        exact ⟨(c :: i0) :: is, r, by simp [splitChars, hc, hs], hr,
          Or.inr ⟨by simp, c :: pre, by simp [h]⟩⟩

theorem splitChars_append_sep (sep : Char) (p : List Char) :
    splitChars sep (p ++ [sep]) = splitChars sep p ++ [[]] := by
  induction p with
  | nil => simp [splitChars]
  | cons c cs ih =>
    by_cases hc : c = sep
    · simp [splitChars, hc, ih]
    · obtain ⟨seg, segs, hseg⟩ := List.exists_cons_of_ne_nil (splitChars_ne_nil sep cs)
      simp [splitChars, hc, ih, hseg]

theorem getD_last_append_singleton {α : Type} (init : List α) (r d : α) :
    (init ++ [r]).getD ((init ++ [r]).length - 1) d = r := by
  simp [List.getD_eq_getElem?_getD]

theorem stringsSplit_ne_nil (s : String) (sep : Char) : stringsSplit s sep ≠ [] := by
  simp [stringsSplit, splitChars_ne_nil]

/-- The last element of `strings.Split(s, sep)`: it contains no separator and
is what follows the last separator of `s`, or all of `s` when `s` has none. -/
theorem stringsSplit_last (s : String) (sep : Char) :
    ∃ r : String, (stringsSplit s sep).getD ((stringsSplit s sep).length - 1) "" = r ∧
      sep ∉ r.data ∧
      ((sep ∉ s.data ∧ r = s) ∨ ∃ pre : String, s = pre ++ String.singleton sep ++ r) ∧
      (∀ p : String, s = p ++ String.singleton sep → r = "") := by
  obtain ⟨init, r, hs, hr, hcase⟩ := splitChars_last sep s.data
  have hsplit : stringsSplit s sep = init.map String.mk ++ [String.mk r] := by
    simp [stringsSplit, hs]
  refine ⟨String.mk r, ?_, hr, ?_, ?_⟩
  · rw [hsplit]; exact getD_last_append_singleton _ _ _
  · rcases hcase with ⟨-, hn, h⟩ | ⟨-, pre, h⟩
    · exact Or.inl ⟨hn, by rw [h]⟩
    · exact Or.inr ⟨String.mk pre, String.ext (by simp [h, String.singleton])⟩
  · intro p hp
    have hd : s.data = p.data ++ [sep] := by rw [hp]; simp [String.singleton]
    rw [hd, splitChars_append_sep] at hs
    have := List.append_inj_right' hs (by simp)
    simp at this
    rw [this]

/-- One iteration of the loop of `readCSV`, in terms of `reader.Read()`. -/
theorem readLoop_read {σ : Type} (accept : Record → σ → Option GoError × σ)
    (reader : CsvReader) (s : σ) :
    readLoop accept reader s =
      match reader.Read with
      | (.error err, _) => (some err, s)
      | (.ok record, rest) =>
        match accept record s with
        | (some err, s) => (some err, s)
        | (none, s) => readLoop accept rest s := by
  cases reader with
  | nil => simp [readLoop, CsvReader.Read]
  | cons x rest =>
    cases x with
    | error err => simp [readLoop, CsvReader.Read]
    | ok record => simp [readLoop, CsvReader.Read]

theorem readLoop_accepted {σ : Type} (accept : Record → σ → Option GoError × σ)
    (pre : List Record) (tail : CsvReader) (s t : σ) (h : acceptAll accept pre s = some t) :
    readLoop accept (pre.map Except.ok ++ tail) s = readLoop accept tail t := by
  induction pre generalizing s with
  | nil =>
    simp only [acceptAll, Option.some.injEq] at h
    simp [h]
  | cons r rest ih =>
    simp only [acceptAll] at h
    simp only [List.map_cons, List.cons_append, readLoop]
    cases hacc : accept r s with
    | mk e s1 =>
      rw [hacc] at h
      cases e with
      | none => exact ih s1 h
      | some err => simp at h

theorem acceptAll_trace {σ : Type} (accept : Record → σ → Option GoError × σ)
    (pre : List Record) (s t : σ) (log : List Record) (h : acceptAll accept pre s = some t) :
    acceptAll (traceAccept accept) pre (s, log) = some (t, log ++ pre) := by
  induction pre generalizing s log with
  | nil =>
    simp only [acceptAll, Option.some.injEq] at h
    simp [acceptAll, h]
  | cons r rest ih =>
    simp only [acceptAll] at h
    simp only [acceptAll, traceAccept]
    cases hacc : accept r s with
    | mk e s1 =>
      rw [hacc] at h
      cases e with
      | none => simpa using ih s1 (log ++ [r]) h
      | some err => simp at h

theorem acceptAll_of_never_fails {σ : Type} (accept : Record → σ → Option GoError × σ)
    (hok : ∀ r t, (accept r t).1 = none) (records : List Record) (s : σ) :
    ∃ t, acceptAll accept records s = some t := by
  induction records generalizing s with
  | nil => exact ⟨s, rfl⟩
  | cons r rest ih =>
    simp only [acceptAll]
    cases hacc : accept r s with
    | mk e s1 =>
      have := hok r s
      rw [hacc] at this
      simp only at this
      subst this
      exact ih s1

theorem acceptAll_Add (records : List Record) (c : CSVRows) :
    acceptAll CSVRows.Add records c = some { Rows := c.Rows ++ records } := by
  induction records generalizing c with
  | nil => simp [acceptAll]
  | cons r rest ih =>
    simp only [acceptAll, CSVRows.Add]
    rw [ih]
    simp

/-- The three ways in which `readCSV` stops, for an arbitrary reader and
callback.  (1) The reader yields `records` and then `io.EOF`, all accepted:
`nil`.  (2) The reader yields `pre`, all accepted, and then the error `e`:
`e`, or `nil` when `e` is `io.EOF`.  (3) The reader yields `pre`, all
accepted, and then `r`, on which the callback fails with `e`: `e`, or `nil`
when `e` is `io.EOF`. -/
theorem readCSV_cases {σ : Type} (newReader : Body → CsvReader) (body : Body)
    (accept : Record → σ → Option GoError × σ) (s : σ) :
    (∀ records t, newReader body = records.map Except.ok → acceptAll accept records s = some t →
      readCSV newReader body accept s = (none, t)) ∧
    (∀ pre e rest t, newReader body = pre.map Except.ok ++ Except.error e :: rest →
      acceptAll accept pre s = some t →
      readCSV newReader body accept s = (eofToNil e, t)) ∧
    (∀ pre r rest t e t2, newReader body = pre.map Except.ok ++ Except.ok r :: rest →
      acceptAll accept pre s = some t → accept r t = (some e, t2) →
      readCSV newReader body accept s = (eofToNil e, t2)) := by
  refine ⟨fun records t hp ha => ?_, fun pre e rest t hp ha => ?_,
    fun pre r rest t e t2 hp ha hr => ?_⟩
  · have := readLoop_accepted accept records [] s t ha
    simp only [List.append_nil] at this
    simp [readCSV, hp, this, readLoop]
  · have := readLoop_accepted accept pre (Except.error e :: rest) s t ha
    simp only [readCSV, hp, this, readLoop, eofToNil]
    by_cases he : e = GoError.EOF <;> simp [he]
  · have := readLoop_accepted accept pre (Except.ok r :: rest) s t ha
    simp only [readCSV, hp, this, readLoop, hr, eofToNil]
    by_cases he : e = GoError.EOF <;> simp [he]

/-- Every run of `readCSV` is one of the three of `readCSV_cases`. -/
theorem reader_cases {σ : Type} (accept : Record → σ → Option GoError × σ)
    (reader : CsvReader) (s : σ) :
    (∃ records t, reader = records.map Except.ok ∧ acceptAll accept records s = some t) ∨
    (∃ pre e rest t, reader = pre.map Except.ok ++ Except.error e :: rest ∧
      acceptAll accept pre s = some t) ∨
    (∃ pre r rest t e t2, reader = pre.map Except.ok ++ Except.ok r :: rest ∧
      acceptAll accept pre s = some t ∧ accept r t = (some e, t2)) := by
  induction reader generalizing s with
  | nil => exact Or.inl ⟨[], s, rfl, rfl⟩
  | cons x rest ih =>
    cases x with
    | error e => exact Or.inr (Or.inl ⟨[], e, rest, s, rfl, rfl⟩)
    | ok r =>
      cases hacc : accept r s with
      | mk e s1 =>
        cases e with
        | some err => exact Or.inr (Or.inr ⟨[], r, rest, s, err, s1, rfl, rfl, hacc⟩)
        | none =>
          have hstep : ∀ l t, acceptAll accept l s1 = some t →
              acceptAll accept (r :: l) s = some t := by
            intro l t hl
            simp only [acceptAll, hacc]
            exact hl
          rcases ih s1 with ⟨records, t, h1, h2⟩ | ⟨pre, e, rest2, t, h1, h2⟩ |
            ⟨pre, r2, rest2, t, e, t2, h1, h2, h3⟩
          · exact Or.inl ⟨r :: records, t, by simp [h1], hstep _ _ h2⟩
          · exact Or.inr (Or.inl ⟨r :: pre, e, rest2, t, by simp [h1], hstep _ _ h2⟩)
          · exact Or.inr (Or.inr ⟨r :: pre, r2, rest2, t, e, t2, by simp [h1], hstep _ _ h2, h3⟩)

theorem GetJSON_of_response {κ τ : Type} (T : Transport κ)
    (decode : Body → τ → Option GoError × τ) (c : Api κ) (uri : String) (v : τ)
    (resp : Response) (hreq : T.newRequestErr uri = none)
    (hdo : (c.do T (getRequest uri "application/json")).1 = .ok resp) :
    Api.GetJSON T decode c uri v =
      if resp.StatusCode ≠ StatusOK then
        { err := some (statusError resp.Status),
          api := (c.do T (getRequest uri "application/json")).2,
          sent := some (getRequest uri "application/json"), body := some resp.Body, val := v }
      else
        { err := if (decode resp.Body v).1 = some GoError.EOF then none
                 else (decode resp.Body v).1,
          api := (c.do T (getRequest uri "application/json")).2,
          sent := some (getRequest uri "application/json"),
          body := some resp.Body.Close, val := (decode resp.Body v).2 } := by
  unfold Api.GetJSON NewRequest
  simp only [hreq]
  change (match c.do T (getRequest uri "application/json") with
    | (.error err, c) => _
    | (.ok resp, c) => _) = _
  generalize c.do T (getRequest uri "application/json") = d at hdo ⊢
  obtain ⟨r, c2⟩ := d
  simp only at hdo
  subst hdo
  simp only
  by_cases hs : resp.StatusCode = StatusOK
  · by_cases he : (decode resp.Body v).1 = some GoError.EOF <;> simp [hs, he, getRequest]
  · simp [hs, getRequest]

theorem GetCSV_of_response {κ σ : Type} (T : Transport κ) (newReader : Body → CsvReader)
    (c : Api κ) (uri : String) (accept : Record → σ → Option GoError × σ) (s : σ)
    (resp : Response) (hreq : T.newRequestErr uri = none)
    (hdo : (c.do T (getRequest uri "text/csv")).1 = .ok resp) :
    Api.GetCSV T newReader c uri accept s =
      if resp.StatusCode ≠ StatusOK then
        { err := some (statusError resp.Status),
          api := (c.do T (getRequest uri "text/csv")).2,
          sent := some (getRequest uri "text/csv"), body := some resp.Body, val := s }
      else
        { err := (readCSV newReader resp.Body accept s).1,
          api := (c.do T (getRequest uri "text/csv")).2,
          sent := some (getRequest uri "text/csv"),
          body := some resp.Body.Close, val := (readCSV newReader resp.Body accept s).2 } := by
  unfold Api.GetCSV NewRequest
  simp only [hreq]
  change (match c.do T (getRequest uri "text/csv") with
    | (.error err, c) => _
    | (.ok resp, c) => _) = _
  generalize c.do T (getRequest uri "text/csv") = d at hdo ⊢
  obtain ⟨r, c2⟩ := d
  simp only at hdo
  subst hdo
  simp only
  by_cases hs : resp.StatusCode = StatusOK <;> simp [hs, getRequest]

theorem GetBody_of_response {κ ω : Type} (T : Transport κ)
    (copy : ω → Body → Option GoError × ω) (c : Api κ) (uri : String) (w : ω)
    (resp : Response) (hreq : T.newRequestErr uri = none)
    (hdo : (c.do T (getRequest uri "")).1 = .ok resp) :
    Api.GetBody T copy c uri w =
      if resp.StatusCode ≠ StatusOK then
        { err := some (statusError resp.Status),
          api := (c.do T (getRequest uri "")).2,
          sent := some (getRequest uri ""), body := some resp.Body, val := w }
      else
        { err := (copy w resp.Body).1,
          api := (c.do T (getRequest uri "")).2,
          sent := some (getRequest uri ""),
          body := some resp.Body.Close, val := (copy w resp.Body).2 } := by
  unfold Api.GetBody NewRequest
  simp only [hreq]
  change (match c.do T (getRequest uri "") with
    | (.error err, c) => _
    | (.ok resp, c) => _) = _
  generalize c.do T (getRequest uri "") = d at hdo ⊢
  obtain ⟨r, c2⟩ := d
  simp only at hdo
  subst hdo
  simp only
  by_cases hs : resp.StatusCode = StatusOK <;> simp [hs, getRequest]

theorem GetJSON_sent {κ τ : Type} (T : Transport κ) (decode : Body → τ → Option GoError × τ)
    (c : Api κ) (uri : String) (v : τ) (hreq : T.newRequestErr uri = none) :
    (Api.GetJSON T decode c uri v).sent = some (getRequest uri "application/json") := by
  unfold Api.GetJSON NewRequest
  simp only [hreq]
  change (match c.do T (getRequest uri "application/json") with
    | (.error err, c) => _
    | (.ok resp, c) => _ : Outcome κ τ).sent = _
  generalize c.do T (getRequest uri "application/json") = d
  obtain ⟨r, c2⟩ := d
  cases r with
  | error e => rfl
  | ok resp =>
    simp only
    split
    · rfl
    · split <;> rfl

theorem GetCSV_sent {κ σ : Type} (T : Transport κ) (newReader : Body → CsvReader)
    (c : Api κ) (uri : String) (accept : Record → σ → Option GoError × σ) (s : σ)
    (hreq : T.newRequestErr uri = none) :
    (Api.GetCSV T newReader c uri accept s).sent = some (getRequest uri "text/csv") := by
  unfold Api.GetCSV NewRequest
  simp only [hreq]
  change (match c.do T (getRequest uri "text/csv") with
    | (.error err, c) => _
    | (.ok resp, c) => _ : Outcome κ σ).sent = _
  generalize c.do T (getRequest uri "text/csv") = d
  obtain ⟨r, c2⟩ := d
  cases r with
  | error e => rfl
  | ok resp =>
    simp only
    split <;> rfl

theorem GetBody_sent {κ ω : Type} (T : Transport κ) (copy : ω → Body → Option GoError × ω)
    (c : Api κ) (uri : String) (w : ω) (hreq : T.newRequestErr uri = none) :
    (Api.GetBody T copy c uri w).sent = some (getRequest uri "") := by
  unfold Api.GetBody NewRequest
  simp only [hreq]
  change (match c.do T (getRequest uri "") with
    | (.error err, c) => _
    | (.ok resp, c) => _ : Outcome κ ω).sent = _
  generalize c.do T (getRequest uri "") = d
  obtain ⟨r, c2⟩ := d
  cases r with
  | error e => rfl
  | ok resp =>
    simp only
    split <;> rfl

theorem lookup_setDefaultHeaders_fixed (req : Request) (contentType : String) :
    (setDefaultHeaders req contentType).Header.lookup "User-Agent" = some [userAgentValue] ∧
    (setDefaultHeaders req contentType).Header.lookup "Accept-Language" = some [languageValue] ∧
    (setDefaultHeaders req contentType).Header.lookup "Cache-Control" =
      some [cacheControlValue] := by
  have h1 : ("User-Agent" : String) ≠ "Accept-Language" := by decide
  have h2 : ("User-Agent" : String) ≠ "Cache-Control" := by decide
  have h3 : ("User-Agent" : String) ≠ "Accept" := by decide
  have h4 : ("Accept-Language" : String) ≠ "Cache-Control" := by decide
  have h5 : ("Accept-Language" : String) ≠ "Accept" := by decide
  have h6 : ("Cache-Control" : String) ≠ "Accept" := by decide
  unfold setDefaultHeaders Header.Set
  by_cases hc : contentType = ""
  · simp only [hc, ne_eq, not_true_eq_false, if_false]
    refine ⟨?_, ?_, ?_⟩
    · rw [AList.lookup_insert_ne h2, AList.lookup_insert_ne h1, AList.lookup_insert]
    · rw [AList.lookup_insert_ne h4, AList.lookup_insert]
    · rw [AList.lookup_insert]
  · simp only [ne_eq, hc, not_false_eq_true, if_true]
    refine ⟨?_, ?_, ?_⟩
    · rw [AList.lookup_insert_ne h3, AList.lookup_insert_ne h2, AList.lookup_insert_ne h1,
        AList.lookup_insert]
    · rw [AList.lookup_insert_ne h5, AList.lookup_insert_ne h4, AList.lookup_insert]
    · rw [AList.lookup_insert_ne h6, AList.lookup_insert]

theorem lookup_setDefaultHeaders_accept (req : Request) (contentType : String) :
    (contentType ≠ "" →
      (setDefaultHeaders req contentType).Header.lookup "Accept" = some [contentType]) ∧
    (contentType = "" →
      (setDefaultHeaders req contentType).Header.lookup "Accept" =
        req.Header.lookup "Accept") := by
  have h1 : ("Accept" : String) ≠ "User-Agent" := by decide
  have h2 : ("Accept" : String) ≠ "Accept-Language" := by decide
  have h3 : ("Accept" : String) ≠ "Cache-Control" := by decide
  unfold setDefaultHeaders Header.Set
  constructor
  · intro hc
    simp only [ne_eq, hc, not_false_eq_true, if_true]
    rw [AList.lookup_insert]
  · intro hc
    simp only [hc, ne_eq, not_true_eq_false, if_false]
    rw [AList.lookup_insert_ne h3, AList.lookup_insert_ne h2, AList.lookup_insert_ne h1]

theorem lookup_setDefaultHeaders_other (req : Request) (contentType k : String)
    (h1 : k ≠ "User-Agent") (h2 : k ≠ "Accept-Language") (h3 : k ≠ "Cache-Control")
    (h4 : k ≠ "Accept") :
    (setDefaultHeaders req contentType).Header.lookup k = req.Header.lookup k := by
  unfold setDefaultHeaders Header.Set
  by_cases hc : contentType = ""
  · simp only [hc, ne_eq, not_true_eq_false, if_false]
    rw [AList.lookup_insert_ne h3, AList.lookup_insert_ne h2, AList.lookup_insert_ne h1]
  · simp only [ne_eq, hc, not_false_eq_true, if_true]
    rw [AList.lookup_insert_ne h4, AList.lookup_insert_ne h3, AList.lookup_insert_ne h2,
      AList.lookup_insert_ne h1]

theorem setDefaultHeaders_frame (req : Request) (contentType : String) :
    (setDefaultHeaders req contentType).Method = req.Method ∧
    (setDefaultHeaders req contentType).URL = req.URL := by
  unfold setDefaultHeaders
  split <;> exact ⟨rfl, rfl⟩

/-- On a 200 response each call closes the body before it returns, whatever
the decoder, callback or copy reports. -/
theorem body_closed_on_200 {κ τ σ ω : Type} (T : Transport κ) (c : Api κ) (uri : String)
    (decode : Body → τ → Option GoError × τ) (v : τ)
    (newReader : Body → CsvReader) (accept : Record → σ → Option GoError × σ) (s : σ)
    (copy : ω → Body → Option GoError × ω) (w : ω)
    (rJ rC rB : Response)
    (hreq : T.newRequestErr uri = none)
    (hJ : (c.do T (getRequest uri "application/json")).1 = .ok rJ)
    (hJs : rJ.StatusCode = StatusOK)
    (hC : (c.do T (getRequest uri "text/csv")).1 = .ok rC)
    (hCs : rC.StatusCode = StatusOK)
    (hB : (c.do T (getRequest uri "")).1 = .ok rB)
    (hBs : rB.StatusCode = StatusOK) :
    (Api.GetJSON T decode c uri v).body = some { data := rJ.Body.data, closed := true } ∧
    (Api.GetCSV T newReader c uri accept s).body =
      some { data := rC.Body.data, closed := true } ∧
    (Api.GetBody T copy c uri w).body = some { data := rB.Body.data, closed := true } := by
  rw [GetJSON_of_response T decode c uri v rJ hreq hJ,
    GetCSV_of_response T newReader c uri _ _ rC hreq hC,
    GetBody_of_response T copy c uri w rB hreq hB]
  simp [hJs, hCs, hBs, Body.Close]

/-- On a response whose status is not 200 each call returns with the body in
the state in which the client delivered it: `Close` is not called. -/
theorem body_untouched_on_non200 {κ τ σ ω : Type} (T : Transport κ) (c : Api κ) (uri : String)
    (decode : Body → τ → Option GoError × τ) (v : τ)
    (newReader : Body → CsvReader) (accept : Record → σ → Option GoError × σ) (s : σ)
    (copy : ω → Body → Option GoError × ω) (w : ω)
    (rJ rC rB : Response)
    (hreq : T.newRequestErr uri = none)
    (hJ : (c.do T (getRequest uri "application/json")).1 = .ok rJ)
    (hJs : rJ.StatusCode ≠ StatusOK)
    (hC : (c.do T (getRequest uri "text/csv")).1 = .ok rC)
    (hCs : rC.StatusCode ≠ StatusOK)
    (hB : (c.do T (getRequest uri "")).1 = .ok rB)
    (hBs : rB.StatusCode ≠ StatusOK) :
    (Api.GetJSON T decode c uri v).body = some rJ.Body ∧
    (Api.GetCSV T newReader c uri accept s).body = some rC.Body ∧
    (Api.GetBody T copy c uri w).body = some rB.Body := by
  rw [GetJSON_of_response T decode c uri v rJ hreq hJ, if_pos hJs,
    GetCSV_of_response T newReader c uri _ _ rC hreq hC, if_pos hCs,
    GetBody_of_response T copy c uri w rB hreq hB, if_pos hBs]
  simp

/-- The method `do` hands the request, as it is, to the client of the
receiver and stores the client as `Client.Do` leaves it. -/
theorem Api_do_eq {κ : Type} (T : Transport κ) (c : Api κ) (req : Request) :
    c.do T req =
      ((T.clientDo (c.clientOrDefault T) req).1,
        { Client := some (T.clientDo (c.clientOrDefault T) req).2 }) := by
  unfold Api.do Api.clientOrDefault
  cases c.Client <;> rfl

theorem GetJSON_api {κ τ : Type} (T : Transport κ) (decode : Body → τ → Option GoError × τ)
    (c : Api κ) (uri : String) (v : τ) (hreq : T.newRequestErr uri = none) :
    (Api.GetJSON T decode c uri v).api = (c.do T (getRequest uri "application/json")).2 := by
  unfold Api.GetJSON NewRequest
  simp only [hreq]
  change (match c.do T (getRequest uri "application/json") with
    | (.error err, c) => _
    | (.ok resp, c) => _ : Outcome κ τ).api = _
  generalize c.do T (getRequest uri "application/json") = d
  obtain ⟨r, c2⟩ := d
  cases r with
  | error e => rfl
  | ok resp =>
    simp only
    split
    · rfl
    · split <;> rfl

theorem GetCSV_api {κ σ : Type} (T : Transport κ) (newReader : Body → CsvReader)
    (c : Api κ) (uri : String) (accept : Record → σ → Option GoError × σ) (s : σ)
    (hreq : T.newRequestErr uri = none) :
    (Api.GetCSV T newReader c uri accept s).api = (c.do T (getRequest uri "text/csv")).2 := by
  unfold Api.GetCSV NewRequest
  simp only [hreq]
  change (match c.do T (getRequest uri "text/csv") with
    | (.error err, c) => _
    | (.ok resp, c) => _ : Outcome κ σ).api = _
  generalize c.do T (getRequest uri "text/csv") = d
  obtain ⟨r, c2⟩ := d
  cases r with
  | error e => rfl
  | ok resp =>
    simp only
    split <;> rfl

theorem GetBody_api {κ ω : Type} (T : Transport κ) (copy : ω → Body → Option GoError × ω)
    (c : Api κ) (uri : String) (w : ω) (hreq : T.newRequestErr uri = none) :
    (Api.GetBody T copy c uri w).api = (c.do T (getRequest uri "")).2 := by
  unfold Api.GetBody NewRequest
  simp only [hreq]
  change (match c.do T (getRequest uri "") with
    | (.error err, c) => _
    | (.ok resp, c) => _ : Outcome κ ω).api = _
  generalize c.do T (getRequest uri "") = d
  obtain ⟨r, c2⟩ := d
  cases r with
  | error e => rfl
  | ok resp =>
    simp only
    split <;> rfl

/-- The request of a `Get*` call: a `GET` for the URI whose only headers are
the three fixed ones and, for a non-empty content type, `Accept`. -/
theorem getRequest_headers (uri contentType : String) :
    (getRequest uri contentType).Method = "GET" ∧
    (getRequest uri contentType).URL = uri ∧
    (getRequest uri contentType).Header.lookup "User-Agent" = some [userAgentValue] ∧
    (getRequest uri contentType).Header.lookup "Accept-Language" = some [languageValue] ∧
    (getRequest uri contentType).Header.lookup "Cache-Control" = some [cacheControlValue] ∧
    (contentType ≠ "" →
      (getRequest uri contentType).Header.lookup "Accept" = some [contentType]) ∧
    (contentType = "" → (getRequest uri contentType).Header.lookup "Accept" = none) ∧
    (∀ k : String, k ≠ "User-Agent" → k ≠ "Accept-Language" → k ≠ "Cache-Control" →
      k ≠ "Accept" → (getRequest uri contentType).Header.lookup k = none) := by
  obtain ⟨f1, f2, f3⟩ := lookup_setDefaultHeaders_fixed
    { Method := "GET", URL := uri, Header := ∅ } contentType
  obtain ⟨a1, a2⟩ := lookup_setDefaultHeaders_accept
    { Method := "GET", URL := uri, Header := ∅ } contentType
  obtain ⟨m1, m2⟩ := setDefaultHeaders_frame
    { Method := "GET", URL := uri, Header := ∅ } contentType
  refine ⟨m1, m2, f1, f2, f3, a1, fun h => ?_, fun k h1 h2 h3 h4 => ?_⟩
  · rw [getRequest, a2 h]
    rfl
  · rw [getRequest, lookup_setDefaultHeaders_other _ contentType k h1 h2 h3 h4]
    rfl

/-! ## The claims -/

/-- C4. `Build` returns `base ++ path` when the map has no entries; otherwise
`base ++ path ++ "?"` followed by the texts `key=value` of the entries joined
by `&`, taken in some ordering of the map's entries in which every key occurs
exactly once, keys and values written verbatim; with exactly one entry the
result is `base ++ path ++ "?" ++ key ++ "=" ++ value`. -/
theorem Build_spec (ρ : RangeOrder) (u : UrlBuilder) :
    (u.entries = [] → u.Build ρ = u.base ++ u.path) ∧
    (u.entries ≠ [] →
      ∃ l : List Entry, l.Perm u.entries ∧ (l.map Sigma.fst).Nodup ∧
        u.Build ρ = u.base ++ u.path ++ "?" ++ String.intercalate "&" (l.map pairString)) ∧
    (∀ k v : String, u.entries = [⟨k, v⟩] →
      u.Build ρ = u.base ++ u.path ++ "?" ++ k ++ "=" ++ v) := by
  refine ⟨Build_of_entries_nil ρ u, fun h => ?_, fun k v h => ?_⟩
  · refine ⟨ρ.visit u.entries, ρ.perm _, ?_, Build_of_entries_ne_nil ρ u h⟩
    exact ((ρ.perm u.entries).map Sigma.fst).nodup_iff.mpr (entries_nodupKeys u)
  · have hne : u.entries ≠ [] := by simp [h]
    have hv : ρ.visit u.entries = [⟨k, v⟩] := by
      have := ρ.perm u.entries
      rw [h] at this ⊢
      exact List.perm_singleton.mp this
    rw [Build_of_entries_ne_nil ρ u hne, hv]
    simp [String.intercalate, String.intercalate.go, pairString, String.append_assoc]

/-- Witness for C4: a builder with base, path and two parameters, built with
the reversed iteration order. -/
theorem Build_spec_witness :
    ((((UrlBuilder.zero.Base "http://h").Path "/p").Param "a" "1").Param "b" "2").entries ≠ [] ∧
    ∃ l : List Entry,
      l.Perm ((((UrlBuilder.zero.Base "http://h").Path "/p").Param "a" "1").Param "b" "2").entries ∧
      (l.map Sigma.fst).Nodup ∧
      ((((UrlBuilder.zero.Base "http://h").Path "/p").Param "a" "1").Param "b" "2").Build
          RangeOrder.reversed =
        "http://h" ++ "/p" ++ "?" ++ String.intercalate "&" (l.map pairString) :=
  ⟨by decide,
   (Build_spec RangeOrder.reversed
      ((((UrlBuilder.zero.Base "http://h").Path "/p").Param "a" "1").Param "b" "2")).2.1
      (by decide)⟩

/-- C5. For non-empty values `v1` and `v2`, `Param k v1` followed by
`Param k v2` leaves the builder in the state that `Param k v2` alone gives
(last write wins): the map then holds the pair `(k, v2)` and no other pair
for `k`, and `Build` writes the pairs of an ordering of the map that contains
`k=v2` and no other pair for `k`, in particular not `k=v1` when `v1` differs
from `v2`.  On the zero builder, `Param "a" "1"` then `Param "a" "2"` builds
exactly `?a=2`. -/
theorem Param_last_write_wins (ρ : RangeOrder) (u : UrlBuilder) (k v1 v2 : String)
    (h1 : v1 ≠ "") (h2 : v2 ≠ "") :
    (u.Param k v1).Param k v2 = u.Param k v2 ∧
    (⟨k, v2⟩ : Entry) ∈ ((u.Param k v1).Param k v2).entries ∧
    (∀ w : String, (⟨k, w⟩ : Entry) ∈ ((u.Param k v1).Param k v2).entries → w = v2) ∧
    (∃ l : List Entry, l.Perm ((u.Param k v1).Param k v2).entries ∧
      ((u.Param k v1).Param k v2).Build ρ =
        u.base ++ u.path ++ "?" ++ String.intercalate "&" (l.map pairString) ∧
      (⟨k, v2⟩ : Entry) ∈ l ∧
      (∀ w : String, (⟨k, w⟩ : Entry) ∈ l → w = v2) ∧
      (v1 ≠ v2 → (⟨k, v1⟩ : Entry) ∉ l)) ∧
    ((UrlBuilder.zero.Param "a" "1").Param "a" "2").Build ρ = "?a=2" := by
  have hsame := Param_Param_same u k v1 v2 h1 h2
  obtain ⟨hmem, honly⟩ := mem_entries_Param u k v2 h2
  obtain ⟨m, -, he, hb, hp⟩ := Param_entries_of_ne u k v2 h2
  rw [hsame]
  refine ⟨rfl, hmem, honly, ?_, ?_⟩
  · have hne : (u.Param k v2).entries ≠ [] := List.ne_nil_of_mem hmem
    have hperm := ρ.perm (u.Param k v2).entries
    refine ⟨ρ.visit (u.Param k v2).entries, hperm, ?_, hperm.mem_iff.mpr hmem,
      fun w hw => honly w (hperm.mem_iff.mp hw), fun hv hw => hv (honly v1 (hperm.mem_iff.mp hw))⟩
    rw [Build_of_entries_ne_nil ρ _ hne, hb, hp]
  · have hz : ((UrlBuilder.zero.Param "a" "1").Param "a" "2").entries = [⟨"a", "2"⟩] := by decide
    have hne : ((UrlBuilder.zero.Param "a" "1").Param "a" "2").entries ≠ [] := by simp [hz]
    have hv : ρ.visit [(⟨"a", "2"⟩ : Entry)] = [⟨"a", "2"⟩] := List.perm_singleton.mp (ρ.perm _)
    rw [Build_of_entries_ne_nil ρ _ hne, hz, hv]
    decide

/-- Witness for C5: the parameter `a` written twice on a builder that already
holds `b`. -/
theorem Param_last_write_wins_witness :
    ((((UrlBuilder.zero.Base "x").Param "b" "0").Param "a" "1").Param "a" "2" =
      ((UrlBuilder.zero.Base "x").Param "b" "0").Param "a" "2") ∧
    ((((UrlBuilder.zero.Base "x").Param "b" "0").Param "a" "1").Param "a" "2").Build
      RangeOrder.stored = "x?a=2&b=0" :=
  ⟨(Param_last_write_wins RangeOrder.stored ((UrlBuilder.zero.Base "x").Param "b" "0")
      "a" "1" "2" (by decide) (by decide)).1, by decide⟩

/-- C6. `Param k ""` is a no-op: the builder (base, path and parameter map)
is unchanged, so `Build` returns the same string as before; on the zero
builder, `Param "a" ""` leaves the map without entries and `Build` returns
the empty base and path, without `a`. -/
theorem Param_empty_noop (ρ : RangeOrder) (u : UrlBuilder) (k : String) :
    u.Param k "" = u ∧
    (u.Param k "").Build ρ = u.Build ρ ∧
    (UrlBuilder.zero.Param "a" "").entries = [] ∧
    (UrlBuilder.zero.Param "a" "").Build ρ = "" := by
  have h : ∀ w : UrlBuilder, w.Param k "" = w := fun w => by simp [UrlBuilder.Param]
  have ha : UrlBuilder.zero.Param "a" "" = UrlBuilder.zero := by simp [UrlBuilder.Param]
  refine ⟨h u, by rw [h u], by rw [ha]; rfl, ?_⟩
  rw [ha, Build_of_entries_nil ρ UrlBuilder.zero rfl]
  rfl

/-- C2. When `url.Parse` accepts the URI, `GetLastURLSegment` returns no
error.  With an empty path the result is the empty string.  With a non-empty
path the result contains no `/` and is what follows the final `/` of the
path (all of the path when it has no `/`; empty when the path ends in `/`);
it is computed from the path alone, so the query plays no part.  With the
model of `url.Parse`, `https://test.com/path1/path2/filename.zip?a=b&z=3`
gives `filename.zip` and `https://test.com` gives the empty string. -/
theorem GetLastURLSegment_spec (parse : String → Except GoError URL) (fullUrl : String)
    (U : URL) (h : parse fullUrl = .ok U) :
    (GetLastURLSegment parse fullUrl).2 = none ∧
    (U.Path = "" → (GetLastURLSegment parse fullUrl).1 = "") ∧
    (U.Path ≠ "" →
      '/' ∉ (GetLastURLSegment parse fullUrl).1.data ∧
      (('/' ∉ U.Path.data ∧ (GetLastURLSegment parse fullUrl).1 = U.Path) ∨
        ∃ pre : String, U.Path = pre ++ "/" ++ (GetLastURLSegment parse fullUrl).1) ∧
      (∀ p : String, U.Path = p ++ "/" → (GetLastURLSegment parse fullUrl).1 = "")) ∧
    (∀ (parse2 : String → Except GoError URL) (url2 : String) (U2 : URL),
      parse2 url2 = .ok U2 → U2.Path = U.Path →
      GetLastURLSegment parse2 url2 = GetLastURLSegment parse fullUrl) ∧
    GetLastURLSegment urlParse "https://test.com/path1/path2/filename.zip?a=b&z=3" =
      ("filename.zip", none) ∧
    GetLastURLSegment urlParse "https://test.com" = ("", none) := by
  refine ⟨?_, ?_, ?_, ?_, by decide, by decide⟩
  · simp only [GetLastURLSegment, h]
    split <;> rfl
  · intro hp
    simp [GetLastURLSegment, h, hp]
  · intro hp
    obtain ⟨r, hr, hno, hcase, htrail⟩ := stringsSplit_last U.Path '/'
    have hres : (GetLastURLSegment parse fullUrl).1 = r := by
      simp only [GetLastURLSegment, h, hp, if_false]
      exact hr
    rw [hres]
    exact ⟨hno, hcase, htrail⟩
  · intro parse2 url2 U2 h2 hP
    simp only [GetLastURLSegment, h, h2, hP]

/-- Witness for C2: a URI with a trailing slash and a query. -/
theorem GetLastURLSegment_spec_witness :
    (GetLastURLSegment urlParse "http://h/a/b/?q=1").2 = none ∧
    (GetLastURLSegment urlParse "http://h/a/b/?q=1").1 = "" :=
  ⟨(GetLastURLSegment_spec urlParse "http://h/a/b/?q=1"
      { Scheme := "http", Opaque := "", Host := "h", Path := "/a/b/", RawQuery := "q=1",
        Fragment := "" } rfl).1,
   (GetLastURLSegment_spec urlParse "http://h/a/b/?q=1"
      { Scheme := "http", Opaque := "", Host := "h", Path := "/a/b/", RawQuery := "q=1",
        Fragment := "" } rfl).2.2.1 (by decide) |>.2.2 "/a/b" (by decide)⟩

/-- C3. When the CSV reader splits the body of a 200 response into the records
`records` followed by end-of-stream and the callback never fails, `readCSV`
(and `GetCSV`) returns `nil` and has invoked the callback exactly on
`records`, once each and in order, threading its state through them; with
`CSVRows.Add` as the callback, `Rows` afterwards is the previous `Rows`
followed by `records`.  With the model of the CSV reader, the body
`1,2,row1\n4,5,row2` yields the two rows in that order and the empty body
yields none. -/
theorem readCSV_all_records {κ σ : Type} (T : Transport κ) (newReader : Body → CsvReader)
    (c : Api κ) (uri : String) (resp : Response) (records : List Record)
    (accept : Record → σ → Option GoError × σ) (s : σ)
    (hparse : newReader resp.Body = records.map Except.ok)
    (hok : ∀ r t, (accept r t).1 = none)
    (hreq : T.newRequestErr uri = none)
    (hdo : (c.do T (getRequest uri "text/csv")).1 = .ok resp)
    (hstatus : resp.StatusCode = StatusOK) :
    (readCSV newReader resp.Body (traceAccept accept) (s, [])).1 = none ∧
    (readCSV newReader resp.Body (traceAccept accept) (s, [])).2.2 = records ∧
    acceptAll accept records s =
      some (readCSV newReader resp.Body (traceAccept accept) (s, [])).2.1 ∧
    (Api.GetCSV T newReader c uri (traceAccept accept) (s, [])).err = none ∧
    (Api.GetCSV T newReader c uri (traceAccept accept) (s, [])).val.2 = records ∧
    (∀ rows : CSVRows,
      readCSV newReader resp.Body CSVRows.Add rows =
        (none, { Rows := rows.Rows ++ records }) ∧
      (Api.GetCSV T newReader c uri CSVRows.Add rows).err = none ∧
      (Api.GetCSV T newReader c uri CSVRows.Add rows).val =
        { Rows := rows.Rows ++ records }) ∧
    readCSV csvNewReader { data := "1,2,row1\n4,5,row2", closed := false } CSVRows.Add
        { Rows := [] } =
      (none, { Rows := [["1", "2", "row1"], ["4", "5", "row2"]] }) ∧
    readCSV csvNewReader { data := "", closed := false } CSVRows.Add { Rows := [] } =
      (none, { Rows := [] }) := by
  obtain ⟨t, ht⟩ := acceptAll_of_never_fails accept hok records s
  have htr := acceptAll_trace accept records s t [] ht
  simp only [List.nil_append] at htr
  have hrun := (readCSV_cases newReader resp.Body (traceAccept accept) (s, [])).1
    records (t, records) hparse htr
  have hadd : ∀ rows : CSVRows, readCSV newReader resp.Body CSVRows.Add rows =
      (none, { Rows := rows.Rows ++ records }) := fun rows =>
    (readCSV_cases newReader resp.Body CSVRows.Add rows).1 records _ hparse
      (acceptAll_Add records rows)
  have hne : ¬ resp.StatusCode ≠ StatusOK := by simp [hstatus]
  refine ⟨by rw [hrun], by rw [hrun], by rw [hrun]; exact ht, ?_, ?_, fun rows => ⟨hadd rows, ?_, ?_⟩,
    by decide, by decide⟩
  · rw [GetCSV_of_response T newReader c uri _ _ resp hreq hdo, if_neg hne, hrun]
  · rw [GetCSV_of_response T newReader c uri _ _ resp hreq hdo, if_neg hne, hrun]
  · rw [GetCSV_of_response T newReader c uri _ _ resp hreq hdo, if_neg hne, hadd rows]
  · rw [GetCSV_of_response T newReader c uri _ _ resp hreq hdo, if_neg hne, hadd rows]

/-- Witness for C3: the test `with 1 record` of `webby_test.go`, run against
the mock server. -/
theorem readCSV_all_records_witness :
    (Api.GetCSV (mockWebResponse
        { StatusCode := 200, Status := "200 OK", Body := { data := "1,2,abc", closed := false } })
      csvNewReader { Client := none } "http://127.0.0.1:8080" (traceAccept CSVRows.Add)
      ({ Rows := [] }, [])).err = none ∧
    (Api.GetCSV (mockWebResponse
        { StatusCode := 200, Status := "200 OK", Body := { data := "1,2,abc", closed := false } })
      csvNewReader { Client := none } "http://127.0.0.1:8080" (traceAccept CSVRows.Add)
      ({ Rows := [] }, [])).val.2 = [["1", "2", "abc"]] :=
  (fun h => ⟨h.2.2.2.1, h.2.2.2.2.1⟩) (readCSV_all_records
    (mockWebResponse
      { StatusCode := 200, Status := "200 OK", Body := { data := "1,2,abc", closed := false } })
    csvNewReader { Client := none } "http://127.0.0.1:8080"
    { StatusCode := 200, Status := "200 OK", Body := { data := "1,2,abc", closed := false } }
    [["1", "2", "abc"]] CSVRows.Add { Rows := [] } rfl (fun _ _ => rfl) rfl rfl rfl)

/-- Counterexample for C7: on the two-record body `a\nb` a callback that
fails on the first record with `io.EOF` makes `readCSV` return `nil`, not
that error. -/
theorem readCSV_callback_EOF_not_propagated :
    (fun (_ : Record) (s : Unit) => (some GoError.EOF, s)) ["a"] () = (some GoError.EOF, ()) ∧
    csvNewReader { data := "a\nb", closed := false } = [.ok ["a"], .ok ["b"]] ∧
    (readCSV csvNewReader { data := "a\nb", closed := false }
      (fun (_ : Record) (s : Unit) => (some GoError.EOF, s)) ()).1 = none ∧
    (readCSV csvNewReader { data := "a\nb", closed := false }
      (fun (_ : Record) (s : Unit) => (some GoError.EOF, s)) ()).1 ≠ some GoError.EOF :=
  ⟨rfl, rfl, by decide, by decide⟩

/-- C7 (amended). For every reader and callback, `readCSV` stops in exactly
one of three ways.  At end-of-stream, all records accepted: `nil`, the
callback invoked on all records.  At the first error `e` of the reader,
after the accepted records `pre`: the callback invoked on `pre` only, and the
result is `e`, except that `io.EOF` gives `nil`.  At the first error `e` of
the callback, on the record `r` after the accepted records `pre`: the
callback invoked on `pre` and `r` only, and the result is `e`, except that
`io.EOF` gives `nil`.  In the last two cases the records after the stopping
point play no part. -/
theorem readCSV_stops_at_first_error {σ : Type} (newReader : Body → CsvReader) (body : Body)
    (accept : Record → σ → Option GoError × σ) (s : σ) :
    (∀ records t, newReader body = records.map Except.ok → acceptAll accept records s = some t →
      readCSV newReader body (traceAccept accept) (s, []) = (none, (t, records))) ∧
    (∀ pre e rest t, newReader body = pre.map Except.ok ++ Except.error e :: rest →
      acceptAll accept pre s = some t →
      readCSV newReader body (traceAccept accept) (s, []) = (eofToNil e, (t, pre))) ∧
    (∀ pre r rest t e t2, newReader body = pre.map Except.ok ++ Except.ok r :: rest →
      acceptAll accept pre s = some t → accept r t = (some e, t2) →
      readCSV newReader body (traceAccept accept) (s, []) = (eofToNil e, (t2, pre ++ [r]))) ∧
    ((∃ records t, newReader body = records.map Except.ok ∧
        acceptAll accept records s = some t) ∨
      (∃ pre e rest t, newReader body = pre.map Except.ok ++ Except.error e :: rest ∧
        acceptAll accept pre s = some t) ∨
      (∃ pre r rest t e t2, newReader body = pre.map Except.ok ++ Except.ok r :: rest ∧
        acceptAll accept pre s = some t ∧ accept r t = (some e, t2))) ∧
    (∀ e, e ≠ GoError.EOF → eofToNil e = some e) ∧
    eofToNil GoError.EOF = none := by
  have hc := readCSV_cases newReader body (traceAccept accept) (s, [])
  refine ⟨fun records t hp ha => ?_, fun pre e rest t hp ha => ?_,
    fun pre r rest t e t2 hp ha hr => ?_, reader_cases accept (newReader body) s,
    fun e he => by simp [eofToNil, he], by simp [eofToNil]⟩
  · have := acceptAll_trace accept records s t [] ha
    exact hc.1 records _ hp (by simpa using this)
  · have := acceptAll_trace accept pre s t [] ha
    exact hc.2.1 pre e rest _ hp (by simpa using this)
  · have := acceptAll_trace accept pre s t [] ha
    exact hc.2.2 pre r rest (t, pre) e (t2, pre ++ [r]) hp (by simpa using this)
      (by simp [traceAccept, hr])

/-- Witness for C7 (amended): the second line of `a,b\nc\nd,e` has the wrong
number of fields; `CSVRows.Add` sees the first record only and the reader's
error is returned. -/
theorem readCSV_stops_at_first_error_witness :
    readCSV csvNewReader { data := "a,b\nc\nd,e", closed := false } (traceAccept CSVRows.Add)
        ({ Rows := [] }, []) =
      (eofToNil (.other "record on line: wrong number of fields"),
        ({ Rows := [["a", "b"]] }, [["a", "b"]])) :=
  (readCSV_stops_at_first_error csvNewReader { data := "a,b\nc\nd,e", closed := false }
    CSVRows.Add { Rows := [] }).2.1 [["a", "b"]] (.other "record on line: wrong number of fields")
    [.ok ["d", "e"]] { Rows := [["a", "b"]] } rfl rfl

/-- Failing input for C9: against the 404 response of the `Server Not Found`
tests, whose body the client delivers open, `GetJSON`, `GetCSV` and `GetBody`
each return the status error and leave the body open, whereas against the
200 response with the same body each of them returns it closed. -/
theorem body_left_open_on_404 :
    (Api.GetJSON (mockWebResponse
        { StatusCode := 404, Status := "404 Not Found", Body := { data := "", closed := false } })
      jsonDecodeKey { Client := none } "http://127.0.0.1:8080" { Key := "" }).body =
      some { data := "", closed := false } ∧
    (Api.GetCSV (mockWebResponse
        { StatusCode := 404, Status := "404 Not Found", Body := { data := "", closed := false } })
      csvNewReader { Client := none } "http://127.0.0.1:8080" CSVRows.Add { Rows := [] }).body =
      some { data := "", closed := false } ∧
    (Api.GetBody (mockWebResponse
        { StatusCode := 404, Status := "404 Not Found", Body := { data := "", closed := false } })
      ioCopyBuffer { Client := none } "http://127.0.0.1:8080" "").body =
      some { data := "", closed := false } ∧
    (Api.GetJSON (mockWebResponse
        { StatusCode := 404, Status := "404 Not Found", Body := { data := "", closed := false } })
      jsonDecodeKey { Client := none } "http://127.0.0.1:8080" { Key := "" }).err =
      some (.errorf "status 404 Not Found") ∧
    (Api.GetJSON (mockWebResponse
        { StatusCode := 200, Status := "200 OK", Body := { data := "", closed := false } })
      jsonDecodeKey { Client := none } "http://127.0.0.1:8080" { Key := "" }).body =
      some { data := "", closed := true } ∧
    (Api.GetCSV (mockWebResponse
        { StatusCode := 200, Status := "200 OK", Body := { data := "", closed := false } })
      csvNewReader { Client := none } "http://127.0.0.1:8080" CSVRows.Add { Rows := [] }).body =
      some { data := "", closed := true } ∧
    (Api.GetBody (mockWebResponse
        { StatusCode := 200, Status := "200 OK", Body := { data := "", closed := false } })
      ioCopyBuffer { Client := none } "http://127.0.0.1:8080" "").body =
      some { data := "", closed := true } := by
  refine ⟨by decide, by decide, by decide, by decide, by decide, by decide, by decide⟩

/-- C8. On a 200 response `GetJSON` returns `nil` when the decoder reports
`io.EOF`, and the target is then as the decoder left it, so unmodified for a
decoder that, like `encoding/json`, does not touch the target at
end-of-stream; returns `nil` with the target as the decoder populated it
when decoding succeeds; and returns the decoder's error for every other
failure.  With the model of the JSON decoder: the empty body gives `nil` and
leaves `Key` alone, the body `{"key":"value"}` gives `nil` and sets `Key` to
`value`, and the truncated body `{"key":` gives the decoder's error. -/
theorem GetJSON_on_200 {κ τ : Type} (T : Transport κ) (decode : Body → τ → Option GoError × τ)
    (c : Api κ) (uri : String) (v : τ) (resp : Response)
    (hreq : T.newRequestErr uri = none)
    (hdo : (c.do T (getRequest uri "application/json")).1 = .ok resp)
    (hstatus : resp.StatusCode = StatusOK) :
    (Api.GetJSON T decode c uri v).val = (decode resp.Body v).2 ∧
    ((decode resp.Body v).1 = some GoError.EOF → (Api.GetJSON T decode c uri v).err = none) ∧
    (decode resp.Body v = (some GoError.EOF, v) →
      (Api.GetJSON T decode c uri v).err = none ∧ (Api.GetJSON T decode c uri v).val = v) ∧
    ((decode resp.Body v).1 = none → (Api.GetJSON T decode c uri v).err = none) ∧
    (∀ e, (decode resp.Body v).1 = some e → e ≠ GoError.EOF →
      (Api.GetJSON T decode c uri v).err = some e) ∧
    (fun out : Outcome Unit KeyTarget => (out.err, out.val))
      (Api.GetJSON (mockWebResponse
          { StatusCode := 200, Status := "200 OK", Body := { data := "", closed := false } })
        jsonDecodeKey { Client := none } "http://127.0.0.1:8080" { Key := "old" }) =
      (none, { Key := "old" }) ∧
    (fun out : Outcome Unit KeyTarget => (out.err, out.val))
      (Api.GetJSON (mockWebResponse
          { StatusCode := 200, Status := "200 OK",
            Body := { data := "\x7b\"key\":\"value\"\x7d", closed := false } })
        jsonDecodeKey { Client := none } "http://127.0.0.1:8080" { Key := "" }) =
      (none, { Key := "value" }) ∧
    (fun out : Outcome Unit KeyTarget => (out.err, out.val))
      (Api.GetJSON (mockWebResponse
          { StatusCode := 200, Status := "200 OK",
            Body := { data := "\x7b\"key\":", closed := false } })
        jsonDecodeKey { Client := none } "http://127.0.0.1:8080" { Key := "old" }) =
      (some (.other "unexpected EOF"), { Key := "old" }) := by
  have hne : ¬ resp.StatusCode ≠ StatusOK := by simp [hstatus]
  rw [GetJSON_of_response T decode c uri v resp hreq hdo, if_neg hne]
  refine ⟨rfl, fun h => by simp [h], fun h => by simp [h], fun h => by simp [h],
    fun e h he => by simp [h, he], by decide, by decide, by decide⟩

/-- Witness for C8: the test `with an empty json body` of `webby_test.go`. -/
theorem GetJSON_on_200_witness :
    (Api.GetJSON (mockWebResponse
        { StatusCode := 200, Status := "200 OK", Body := { data := "\x7b\x7d", closed := false } })
      jsonDecodeKey { Client := none } "http://127.0.0.1:8080" { Key := "old" }).err = none :=
  (GetJSON_on_200
    (mockWebResponse
      { StatusCode := 200, Status := "200 OK", Body := { data := "\x7b\x7d", closed := false } })
    jsonDecodeKey { Client := none } "http://127.0.0.1:8080" { Key := "old" }
    { StatusCode := 200, Status := "200 OK", Body := { data := "\x7b\x7d", closed := false } }
    rfl rfl rfl).2.2.2.1 (by decide)

/-- C10. For every request and content type, `setDefaultHeaders` sets
`User-Agent`, `Accept-Language` and `Cache-Control` to the three constants;
sets `Accept` to the content type when it is non-empty and leaves `Accept` as
it was when it is empty; and changes no other header, nor the method or URL.
Once `http.NewRequest` accepts the URI, the client's `Do` is applied to the
fresh `GET` request with these headers, and the receiver keeps the client as
`Do` leaves it: a client that records what it receives has received, after
`GetJSON`, one more request, with `Accept: application/json`; after `GetCSV`,
one with `Accept: text/csv`; after `GetBody`, one without `Accept`; each
carrying the three fixed headers and no other header. -/
theorem setDefaultHeaders_spec {κ τ σ ω : Type} (req : Request) (contentType : String)
    (T : Transport κ) (c : Api κ) (uri : String)
    (decode : Body → τ → Option GoError × τ) (v : τ)
    (newReader : Body → CsvReader) (accept : Record → σ → Option GoError × σ) (s : σ)
    (copy : ω → Body → Option GoError × ω) (w : ω)
    (answer : Request → Except GoError Response) (received : List Request)
    (hreq : T.newRequestErr uri = none) :
    (setDefaultHeaders req contentType).Header.lookup "User-Agent" = some [userAgentValue] ∧
    (setDefaultHeaders req contentType).Header.lookup "Accept-Language" = some [languageValue] ∧
    (setDefaultHeaders req contentType).Header.lookup "Cache-Control" =
      some [cacheControlValue] ∧
    (contentType ≠ "" →
      (setDefaultHeaders req contentType).Header.lookup "Accept" = some [contentType]) ∧
    (contentType = "" →
      (setDefaultHeaders req contentType).Header.lookup "Accept" =
        req.Header.lookup "Accept") ∧
    (∀ k : String, k ≠ "User-Agent" → k ≠ "Accept-Language" → k ≠ "Cache-Control" →
      k ≠ "Accept" →
      (setDefaultHeaders req contentType).Header.lookup k = req.Header.lookup k) ∧
    (setDefaultHeaders req contentType).Method = req.Method ∧
    (setDefaultHeaders req contentType).URL = req.URL ∧
    (Api.GetJSON T decode c uri v).api.Client =
      some (T.clientDo (c.clientOrDefault T)
        (setDefaultHeaders { Method := "GET", URL := uri, Header := ∅ } "application/json")).2 ∧
    (Api.GetCSV T newReader c uri accept s).api.Client =
      some (T.clientDo (c.clientOrDefault T)
        (setDefaultHeaders { Method := "GET", URL := uri, Header := ∅ } "text/csv")).2 ∧
    (Api.GetBody T copy c uri w).api.Client =
      some (T.clientDo (c.clientOrDefault T)
        (setDefaultHeaders { Method := "GET", URL := uri, Header := ∅ } "")).2 ∧
    (∃ r : Request,
      (Api.GetJSON (recordingTransport answer) decode { Client := some received } uri v).api.Client
        = some (received ++ [r]) ∧
      r.Method = "GET" ∧ r.URL = uri ∧
      r.Header.lookup "Accept" = some ["application/json"] ∧
      r.Header.lookup "User-Agent" = some [userAgentValue] ∧
      r.Header.lookup "Accept-Language" = some [languageValue] ∧
      r.Header.lookup "Cache-Control" = some [cacheControlValue] ∧
      (∀ k : String, k ≠ "User-Agent" → k ≠ "Accept-Language" → k ≠ "Cache-Control" →
        k ≠ "Accept" → r.Header.lookup k = none)) ∧
    (∃ r : Request,
      (Api.GetCSV (recordingTransport answer) newReader { Client := some received } uri
        accept s).api.Client = some (received ++ [r]) ∧
      r.Method = "GET" ∧ r.URL = uri ∧
      r.Header.lookup "Accept" = some ["text/csv"] ∧
      r.Header.lookup "User-Agent" = some [userAgentValue] ∧
      r.Header.lookup "Accept-Language" = some [languageValue] ∧
      r.Header.lookup "Cache-Control" = some [cacheControlValue] ∧
      (∀ k : String, k ≠ "User-Agent" → k ≠ "Accept-Language" → k ≠ "Cache-Control" →
        k ≠ "Accept" → r.Header.lookup k = none)) ∧
    (∃ r : Request,
      (Api.GetBody (recordingTransport answer) copy { Client := some received } uri w).api.Client
        = some (received ++ [r]) ∧
      r.Method = "GET" ∧ r.URL = uri ∧
      r.Header.lookup "Accept" = none ∧
      r.Header.lookup "User-Agent" = some [userAgentValue] ∧
      r.Header.lookup "Accept-Language" = some [languageValue] ∧
      r.Header.lookup "Cache-Control" = some [cacheControlValue] ∧
      (∀ k : String, k ≠ "User-Agent" → k ≠ "Accept-Language" → k ≠ "Cache-Control" →
        k ≠ "Accept" → r.Header.lookup k = none)) := by
  obtain ⟨f1, f2, f3⟩ := lookup_setDefaultHeaders_fixed req contentType
  obtain ⟨a1, a2⟩ := lookup_setDefaultHeaders_accept req contentType
  obtain ⟨m1, m2⟩ := setDefaultHeaders_frame req contentType
  have hJ := getRequest_headers uri "application/json"
  have hC := getRequest_headers uri "text/csv"
  have hB := getRequest_headers uri ""
  refine ⟨f1, f2, f3, a1, a2,
    fun k h1 h2 h3 h4 => lookup_setDefaultHeaders_other req contentType k h1 h2 h3 h4, m1, m2,
    ?_, ?_, ?_,
    ⟨getRequest uri "application/json", ?_, hJ.1, hJ.2.1, hJ.2.2.2.2.2.1 (by decide),
      hJ.2.2.1, hJ.2.2.2.1, hJ.2.2.2.2.1, hJ.2.2.2.2.2.2.2⟩,
    ⟨getRequest uri "text/csv", ?_, hC.1, hC.2.1, hC.2.2.2.2.2.1 (by decide),
      hC.2.2.1, hC.2.2.2.1, hC.2.2.2.2.1, hC.2.2.2.2.2.2.2⟩,
    ⟨getRequest uri "", ?_, hB.1, hB.2.1, hB.2.2.2.2.2.2.1 rfl,
      hB.2.2.1, hB.2.2.2.1, hB.2.2.2.2.1, hB.2.2.2.2.2.2.2⟩⟩
  · rw [GetJSON_api T decode c uri v hreq, Api_do_eq]
    rfl
  · rw [GetCSV_api T newReader c uri accept s hreq, Api_do_eq]
    rfl
  · rw [GetBody_api T copy c uri w hreq, Api_do_eq]
    rfl
  · rw [GetJSON_api (recordingTransport answer) decode _ uri v rfl, Api_do_eq]
    rfl
  · rw [GetCSV_api (recordingTransport answer) newReader _ uri accept s rfl, Api_do_eq]
    rfl
  · rw [GetBody_api (recordingTransport answer) copy _ uri w rfl, Api_do_eq]
    rfl

/-- Witness for C10: a request that already carries an `Accept` and a `Cookie`
header keeps both when the content type is empty. -/
theorem setDefaultHeaders_spec_witness :
    (setDefaultHeaders
        { Method := "GET", URL := "http://h/",
          Header := AList.insert "Accept" ["*/*"] (AList.insert "Cookie" ["a=b"] ∅) }
        "").Header.lookup "Accept" = some ["*/*"] ∧
    (setDefaultHeaders
        { Method := "GET", URL := "http://h/",
          Header := AList.insert "Accept" ["*/*"] (AList.insert "Cookie" ["a=b"] ∅) }
        "").Header.lookup "Cookie" = some ["a=b"] :=
  (fun h => ⟨(h.2.2.2.2.1 rfl).trans (by decide),
      (h.2.2.2.2.2.1 "Cookie" (by decide) (by decide) (by decide) (by decide)).trans
        (by decide)⟩)
    (setDefaultHeaders_spec
      { Method := "GET", URL := "http://h/",
        Header := AList.insert "Accept" ["*/*"] (AList.insert "Cookie" ["a=b"] ∅) }
      ""
      (mockWebResponse
        { StatusCode := 200, Status := "200 OK", Body := { data := "", closed := false } })
      { Client := none } "http://127.0.0.1:8080" jsonDecodeKey { Key := "" }
      csvNewReader CSVRows.Add { Rows := [] } ioCopyBuffer ""
      (fun _ => .error (.other "connection refused")) [] rfl)

/-- C1. When the client returns a response whose status code is not 200, each
of `GetJSON`, `GetCSV` and `GetBody`, on its own, returns the non-nil error
`fmt.Errorf("status %s", resp.Status)` and does nothing with the body: the
JSON target is unchanged, the callback of `GetCSV` is not invoked (its state
is unchanged and its invocation log empty), and the writer of `GetBody` is
unchanged. -/
theorem non200_status_error {κ τ σ ω : Type} (T : Transport κ) (c : Api κ) (uri : String)
    (decode : Body → τ → Option GoError × τ) (v : τ)
    (newReader : Body → CsvReader) (accept : Record → σ → Option GoError × σ) (s : σ)
    (copy : ω → Body → Option GoError × ω) (w : ω)
    (hreq : T.newRequestErr uri = none) :
    (∀ resp : Response,
      (T.clientDo (c.clientOrDefault T)
        (setDefaultHeaders { Method := "GET", URL := uri, Header := ∅ } "application/json")).1
        = .ok resp →
      resp.StatusCode ≠ StatusOK →
      (Api.GetJSON T decode c uri v).err = some (statusError resp.Status) ∧
      (Api.GetJSON T decode c uri v).err ≠ none ∧
      (Api.GetJSON T decode c uri v).val = v) ∧
    (∀ resp : Response,
      (T.clientDo (c.clientOrDefault T)
        (setDefaultHeaders { Method := "GET", URL := uri, Header := ∅ } "text/csv")).1
        = .ok resp →
      resp.StatusCode ≠ StatusOK →
      (Api.GetCSV T newReader c uri (traceAccept accept) (s, [])).err =
        some (statusError resp.Status) ∧
      (Api.GetCSV T newReader c uri (traceAccept accept) (s, [])).err ≠ none ∧
      (Api.GetCSV T newReader c uri (traceAccept accept) (s, [])).val = (s, []) ∧
      (Api.GetCSV T newReader c uri accept s).err = some (statusError resp.Status) ∧
      (Api.GetCSV T newReader c uri accept s).val = s) ∧
    (∀ resp : Response,
      (T.clientDo (c.clientOrDefault T)
        (setDefaultHeaders { Method := "GET", URL := uri, Header := ∅ } "")).1 = .ok resp →
      resp.StatusCode ≠ StatusOK →
      (Api.GetBody T copy c uri w).err = some (statusError resp.Status) ∧
      (Api.GetBody T copy c uri w).err ≠ none ∧
      (Api.GetBody T copy c uri w).val = w) := by
  have hdo : ∀ ct resp,
      (T.clientDo (c.clientOrDefault T)
        (setDefaultHeaders { Method := "GET", URL := uri, Header := ∅ } ct)).1 = .ok resp →
      (c.do T (getRequest uri ct)).1 = .ok resp := by
    intro ct resp h
    rw [Api_do_eq]
    exact h
  refine ⟨fun resp h hs => ?_, fun resp h hs => ?_, fun resp h hs => ?_⟩
  · rw [GetJSON_of_response T decode c uri v resp hreq (hdo _ _ h), if_pos hs]
    simp
  · rw [GetCSV_of_response T newReader c uri _ _ resp hreq (hdo _ _ h), if_pos hs,
      GetCSV_of_response T newReader c uri _ _ resp hreq (hdo _ _ h), if_pos hs]
    simp
  · rw [GetBody_of_response T copy c uri w resp hreq (hdo _ _ h), if_pos hs]
    simp

/-- Witness for C1: a server that answers 404 to requests with
`Accept: application/json` and 200 to all others; `GetJSON` returns the
status error and leaves the target alone. -/
theorem non200_status_error_witness :
    (Api.GetJSON
      (recordingTransport (fun req =>
        if req.Header.lookup "Accept" = some ["application/json"] then
          .ok { StatusCode := 404, Status := "404 Not Found",
                Body := { data := "", closed := false } }
        else
          .ok { StatusCode := 200, Status := "200 OK",
                Body := { data := "1,2,abc", closed := false } }))
      jsonDecodeKey { Client := none } "http://127.0.0.1:8080" { Key := "old" }).err =
      some (.errorf "status 404 Not Found") ∧
    (Api.GetJSON
      (recordingTransport (fun req =>
        if req.Header.lookup "Accept" = some ["application/json"] then
          .ok { StatusCode := 404, Status := "404 Not Found",
                Body := { data := "", closed := false } }
        else
          .ok { StatusCode := 200, Status := "200 OK",
                Body := { data := "1,2,abc", closed := false } }))
      jsonDecodeKey { Client := none } "http://127.0.0.1:8080" { Key := "old" }).val =
      { Key := "old" } :=
  (fun h => ⟨h.1, h.2.2⟩)
    ((non200_status_error
      (recordingTransport (fun req =>
        if req.Header.lookup "Accept" = some ["application/json"] then
          .ok { StatusCode := 404, Status := "404 Not Found",
                Body := { data := "", closed := false } }
        else
          .ok { StatusCode := 200, Status := "200 OK",
                Body := { data := "1,2,abc", closed := false } }))
      { Client := none } "http://127.0.0.1:8080" jsonDecodeKey { Key := "old" }
      csvNewReader CSVRows.Add { Rows := [] } ioCopyBuffer "" rfl).1
      { StatusCode := 404, Status := "404 Not Found", Body := { data := "", closed := false } }
      rfl (by decide))

end Webby
